import Mathlib

/-!
Shallow embedding of the SPH fluid simulator in `src/main.rs` (bevy app).
`f32` arithmetic is modelled over `ℝ`; 2-vectors (`bevy::Vec2`) as a
two-field structure with componentwise operations, scalar multiplication
and division, and the Euclidean length.
-/

namespace FluidSim

noncomputable section

/-- `const PARTICLE_SIZE: f32 = 0.1;` -/
def PARTICLE_SIZE : ℝ := 0.1

/-- `const MASS: f32 = 1.;` -/
def MASS : ℝ := 1

/-- Model of `bevy::math::Vec2`. -/
@[ext]
structure Vec2 where
  x : ℝ
  y : ℝ

namespace Vec2

instance : Zero Vec2 := ⟨⟨0, 0⟩⟩
instance : Add Vec2 := ⟨fun a b => ⟨a.x + b.x, a.y + b.y⟩⟩
instance : Neg Vec2 := ⟨fun a => ⟨-a.x, -a.y⟩⟩
instance : Sub Vec2 := ⟨fun a b => ⟨a.x - b.x, a.y - b.y⟩⟩
instance : SMul ℝ Vec2 := ⟨fun s v => ⟨s * v.x, s * v.y⟩⟩
instance : HMul Vec2 ℝ Vec2 := ⟨fun v s => ⟨v.x * s, v.y * s⟩⟩
instance : HDiv Vec2 ℝ Vec2 := ⟨fun v s => ⟨v.x / s, v.y / s⟩⟩

@[simp] theorem zero_x : (0 : Vec2).x = 0 := rfl
@[simp] theorem zero_y : (0 : Vec2).y = 0 := rfl
@[simp] theorem add_x (a b : Vec2) : (a + b).x = a.x + b.x := rfl
@[simp] theorem add_y (a b : Vec2) : (a + b).y = a.y + b.y := rfl
@[simp] theorem neg_x (a : Vec2) : (-a).x = -a.x := rfl
@[simp] theorem neg_y (a : Vec2) : (-a).y = -a.y := rfl
@[simp] theorem sub_x (a b : Vec2) : (a - b).x = a.x - b.x := rfl
@[simp] theorem sub_y (a b : Vec2) : (a - b).y = a.y - b.y := rfl
@[simp] theorem smul_x (s : ℝ) (v : Vec2) : (s • v).x = s * v.x := rfl
@[simp] theorem smul_y (s : ℝ) (v : Vec2) : (s • v).y = s * v.y := rfl
@[simp] theorem mul_x (v : Vec2) (s : ℝ) : (v * s).x = v.x * s := rfl
@[simp] theorem mul_y (v : Vec2) (s : ℝ) : (v * s).y = v.y * s := rfl
@[simp] theorem div_x (v : Vec2) (s : ℝ) : (v / s).x = v.x / s := rfl
@[simp] theorem div_y (v : Vec2) (s : ℝ) : (v / s).y = v.y / s := rfl

instance : AddCommMonoid Vec2 where
  add_assoc a b c := by ext <;> simp <;> ring
  zero_add a := by ext <;> simp
  add_zero a := by ext <;> simp
  add_comm a b := by ext <;> simp <;> ring
  nsmul := nsmulRec

/-- `Vec2::length`: Euclidean norm. -/
def length (v : Vec2) : ℝ := Real.sqrt (v.x ^ 2 + v.y ^ 2)

/-- `Vec2::X` -/
def X : Vec2 := ⟨1, 0⟩

/-- `Vec2::ONE` -/
def ONE : Vec2 := ⟨1, 1⟩

@[simp] theorem mk_add_mk (a b c d : ℝ) : (⟨a, b⟩ : Vec2) + ⟨c, d⟩ = ⟨a + c, b + d⟩ := rfl
@[simp] theorem mk_sub_mk (a b c d : ℝ) : (⟨a, b⟩ : Vec2) - ⟨c, d⟩ = ⟨a - c, b - d⟩ := rfl
@[simp] theorem smul_mk (s a b : ℝ) : s • (⟨a, b⟩ : Vec2) = ⟨s * a, s * b⟩ := rfl
@[simp] theorem mk_mul (a b s : ℝ) : (⟨a, b⟩ : Vec2) * s = ⟨a * s, b * s⟩ := rfl
@[simp] theorem mk_div (a b s : ℝ) : (⟨a, b⟩ : Vec2) / s = ⟨a / s, b / s⟩ := rfl

@[simp] theorem length_zero : (0 : Vec2).length = 0 := by
  simp [length]

theorem length_nonneg (v : Vec2) : 0 ≤ v.length := Real.sqrt_nonneg _

@[simp] theorem sub_self (v : Vec2) : v - v = 0 := by ext <;> simp

end Vec2

/-- Model of `f32::signum` (NaN excluded; `0` behaves as Rust's `+0.0`). -/
def signum (x : ℝ) : ℝ := if x < 0 then -1 else 1

/-- The `SimConfig` resource. -/
structure SimConfig where
  collision_damping : ℝ
  smoothing_radius : ℝ
  bounds_size : Vec2
  gravity : ℝ
  particles_num : ℕ
  particles_spacing : ℝ
  target_density : ℝ
  pressure_multiplier : ℝ

/-- `WINDOW_WIDTH` -/
def WINDOW_WIDTH : ℝ := 1920

/-- `WINDOW_HEIGHT` -/
def WINDOW_HEIGHT : ℝ := 1080

/-- `impl Default for SimConfig`. -/
def SimConfig.default : SimConfig where
  collision_damping := 0.7
  smoothing_radius := 1.3
  bounds_size := ⟨WINDOW_WIDTH * 0.8 / 100, WINDOW_HEIGHT * 0.8 / 100⟩
  gravity := 10
  particles_num := 402
  particles_spacing := 2 * PARTICLE_SIZE + 0.02
  target_density := 2.75
  pressure_multiplier := 0.5

/-- One particle: `Transform` translation (xy), `Velocity`, `Density`. -/
@[ext]
structure Particle where
  position : Vec2
  velocity : Vec2
  density : ℝ

/-- `fn smoothing_kernel(radius: f32, dst: f32) -> f32`. -/
def smoothing_kernel (radius dst : ℝ) : ℝ :=
  let volume := Real.pi * radius ^ (8 : ℕ) / 4
  let v := max (radius - dst) 0
  v * v * v / volume

/-- `fn smoothing_kernel_derivative(radius: f32, dst: f32) -> f32`. -/
def smoothing_kernel_derivative (radius dst : ℝ) : ℝ :=
  if radius ≤ dst then 0
  else
    let f := radius * radius - dst * dst
    let scale := -24 / (Real.pi * radius ^ (8 : ℕ))
    scale * dst * f * f

/-- `fn convert_density_to_pressure`. -/
def convert_density_to_pressure (density target_density pressure_multiplier : ℝ) : ℝ :=
  (density - target_density) * pressure_multiplier

/-- The density computed by the `update_density` system: for each collected
position, an inner pass over all particle positions accumulating
`MASS * smoothing_kernel(radius, dst)`; the results are written back in the
same query iteration order. -/
def update_density (cfg : SimConfig) (positions : List Vec2) : List ℝ :=
  positions.map fun particles_position =>
    positions.foldl
      (fun density position =>
        density + MASS * smoothing_kernel cfg.smoothing_radius ((position - particles_position).length))
      0

/-- Body of the loop in `calculate_pressure_force` for one neighbor. -/
def pressure_force_term (sample_point : Vec2) (cfg : SimConfig) (position : Vec2) (density : ℝ) : Vec2 :=
  let dst := (position - sample_point).length
  let dir := if dst ≤ 0.0001 then Vec2.X else (position - sample_point) / dst
  let slope := smoothing_kernel_derivative cfg.smoothing_radius dst
  let pressure := -convert_density_to_pressure density cfg.target_density cfg.pressure_multiplier
  pressure • dir * slope * MASS / density

/-- `fn calculate_pressure_force(sample_point, positions, densities, sim_config) -> Vec2`:
the loop runs over the index-aligned `positions`/`densities` slices. -/
def calculate_pressure_force (sample_point : Vec2) (positions : List Vec2) (densities : List ℝ)
    (cfg : SimConfig) : Vec2 :=
  (positions.zip densities).foldl
    (fun pressure_force pd => pressure_force + pressure_force_term sample_point cfg pd.1 pd.2)
    0

/-- The `update_density` system acting on the particle store. -/
def update_density_pass (cfg : SimConfig) (particles : List Particle) : List Particle :=
  (particles.zip (update_density cfg (particles.map Particle.position))).map
    fun pd => { pd.1 with density := pd.2 }

/-- The `apply_pressure_force` system: snapshot positions and densities, then
for each particle add `pressure_force / density * dt` to its velocity. -/
def apply_pressure_force (dt : ℝ) (cfg : SimConfig) (particles : List Particle) : List Particle :=
  let positions := particles.map Particle.position
  let densities := particles.map Particle.density
  particles.map fun p =>
    let pressure_force := calculate_pressure_force p.position positions densities cfg
    let pressure_acceleration := pressure_force / p.density
    { p with velocity := p.velocity + pressure_acceleration * dt }

/-- The `update_position` system: `translation += velocity * dt`. -/
def update_position (dt : ℝ) (particles : List Particle) : List Particle :=
  particles.map fun p => { p with position := p.position + p.velocity * dt }

/-- `half_bounds_size` as computed in `resolve_collision`. -/
def half_extent (cfg : SimConfig) : Vec2 :=
  cfg.bounds_size * (0.5 : ℝ) - Vec2.ONE * PARTICLE_SIZE

/-- Body of the `resolve_collision` system for one particle: the `x` axis is
resolved first, then the `y` axis on the partially updated particle. -/
def resolve_collision (cfg : SimConfig) (p : Particle) : Particle :=
  let half_bounds_size := half_extent cfg
  let p1 :=
    if half_bounds_size.x < |p.position.x| then
      { p with
        position := ⟨half_bounds_size.x * signum p.position.x, p.position.y⟩,
        velocity := ⟨p.velocity.x * (-1 * cfg.collision_damping), p.velocity.y⟩ }
    else p
  if half_bounds_size.y < |p1.position.y| then
    { p1 with
      position := ⟨p1.position.x, half_bounds_size.y * signum p1.position.y⟩,
      velocity := ⟨p1.velocity.x, p1.velocity.y * (-1 * cfg.collision_damping)⟩ }
  else p1

/-- The `resolve_collision` system over the particle store. -/
def resolve_collision_pass (cfg : SimConfig) (particles : List Particle) : List Particle :=
  particles.map (resolve_collision cfg)

/-! ### Kernel math lemmas -/

theorem volume_pos (r : ℝ) (hr : 0 < r) : 0 < Real.pi * r ^ (8 : ℕ) / 4 := by
  have := Real.pi_pos
  positivity

theorem smoothing_kernel_of_lt (r d : ℝ) (h : d < r) :
    smoothing_kernel r d = (r - d) ^ 3 / (Real.pi * r ^ (8 : ℕ) / 4) := by
  unfold smoothing_kernel
  rw [max_eq_left (by linarith : (0 : ℝ) ≤ r - d)]
  ring

theorem smoothing_kernel_of_le (r d : ℝ) (h : r ≤ d) : smoothing_kernel r d = 0 := by
  unfold smoothing_kernel
  rw [max_eq_right (by linarith : r - d ≤ (0 : ℝ))]
  simp

theorem smoothing_kernel_nonneg (r d : ℝ) (hr : 0 < r) : 0 ≤ smoothing_kernel r d := by
  simp only [smoothing_kernel]
  have hv := volume_pos r hr
  have hm : (0 : ℝ) ≤ max (r - d) 0 := le_max_right _ _
  exact div_nonneg (mul_nonneg (mul_nonneg hm hm) hm) hv.le

theorem smoothing_kernel_zero_pos (r : ℝ) (hr : 0 < r) : 0 < smoothing_kernel r 0 := by
  rw [smoothing_kernel_of_lt r 0 hr, sub_zero]
  exact div_pos (pow_pos hr 3) (volume_pos r hr)

theorem smoothing_kernel_derivative_zero (r : ℝ) : smoothing_kernel_derivative r 0 = 0 := by
  unfold smoothing_kernel_derivative
  split
  · rfl
  · simp

/-! ### Claim theorems: kernel -/

/-- C7: for radius `r > 0` and distance `d ≥ 0`, `smoothing_kernel r d` equals
`(r − d)³ / (π·r⁸/4)` when `d < r`, equals `0` when `d ≥ r` (compact support),
and is strictly below its peak value `smoothing_kernel r 0` for `0 < d < r`. -/
theorem smoothing_kernel_spec (r d : ℝ) (hr : 0 < r) (hd : 0 ≤ d) :
    (d < r → smoothing_kernel r d = (r - d) ^ 3 / (Real.pi * r ^ (8 : ℕ) / 4)) ∧
    (r ≤ d → smoothing_kernel r d = 0) ∧
    (0 < d → d < r → smoothing_kernel r 0 > smoothing_kernel r d) := by
  refine ⟨fun h => smoothing_kernel_of_lt r d h, fun h => smoothing_kernel_of_le r d h, ?_⟩
  intro hd0 hdr
  rw [smoothing_kernel_of_lt r d hdr, smoothing_kernel_of_lt r 0 hr]
  have hv := volume_pos r hr
  rw [gt_iff_lt, div_lt_div_iff₀ hv hv]
  have hcube : (r - d) ^ 3 < (r - 0) ^ 3 := by
    apply pow_lt_pow_left₀ (by linarith) (by linarith)
    norm_num
  nlinarith [hv]

/-! ### Folds as sums -/

theorem foldl_add_eq_sum {α M : Type*} [AddCommMonoid M] (f : α → M) :
    ∀ (l : List α) (init : M), l.foldl (fun acc a => acc + f a) init = init + (l.map f).sum
  | [], init => by simp
  | a :: l, init => by
    simp only [List.foldl_cons, List.map_cons, List.sum_cons, foldl_add_eq_sum f l]
    rw [add_assoc]

theorem map_sum_eq_fin_sum {α M : Type*} [AddCommMonoid M] (l : List α) (f : α → M) :
    (l.map f).sum = ∑ j : Fin l.length, f (l.get j) := by
  conv_lhs => rw [← List.ofFn_get l]
  rw [List.map_ofFn, List.sum_ofFn]
  simp [Function.comp]

/-! ### Density estimator -/

theorem update_density_get (cfg : SimConfig) (ps : List Vec2) (i : ℕ) (h : i < ps.length) :
    (update_density cfg ps)[i]? =
      some (∑ j : Fin ps.length,
        MASS * smoothing_kernel cfg.smoothing_radius ((ps.get j - ps.get ⟨i, h⟩).length)) := by
  unfold update_density
  rw [List.getElem?_map, List.getElem?_eq_getElem h, Option.map_some']
  rw [foldl_add_eq_sum
    (fun position => MASS * smoothing_kernel cfg.smoothing_radius ((position - ps[i]).length)) ps 0]
  rw [zero_add, map_sum_eq_fin_sum]
  simp [List.get_eq_getElem]

/-- C2: after the density pass, the `i`-th density equals the sum over all
particles `j` (self included) of `MASS * smoothing_kernel(radius, |pos j − pos i|)`,
all distances taken on the one positions snapshot. -/
theorem update_density_formula (cfg : SimConfig) (ps : List Vec2) (i : ℕ) (h : i < ps.length) :
    (update_density cfg ps)[i]? =
      some (∑ j : Fin ps.length,
        MASS * smoothing_kernel cfg.smoothing_radius ((ps.get j - ps.get ⟨i, h⟩).length)) :=
  update_density_get cfg ps i h

/-- Witness for C2 on a concrete two-particle store. -/
theorem update_density_formula_witness :
    0 < ([⟨0, 0⟩, ⟨1, 0⟩] : List Vec2).length ∧
    (update_density SimConfig.default [⟨0, 0⟩, ⟨1, 0⟩])[0]? =
      some (∑ j : Fin ([⟨0, 0⟩, ⟨1, 0⟩] : List Vec2).length,
        MASS * smoothing_kernel SimConfig.default.smoothing_radius
          ((([⟨0, 0⟩, ⟨1, 0⟩] : List Vec2).get j -
            ([⟨0, 0⟩, ⟨1, 0⟩] : List Vec2).get ⟨0, by norm_num⟩).length)) :=
  ⟨by norm_num, update_density_formula SimConfig.default [⟨0, 0⟩, ⟨1, 0⟩] 0 (by norm_num)⟩

/-- C4: with a positive smoothing radius, every density produced by the density
pass is at least the self-contribution `MASS * smoothing_kernel radius 0` and in
particular strictly positive, so the divisions by `density[j]` and by `density[i]`
in the pressure pass never divide by zero. -/
theorem update_density_pos (cfg : SimConfig) (ps : List Vec2) (i : ℕ)
    (hr : 0 < cfg.smoothing_radius) (h : i < ps.length) :
    ∃ d : ℝ, (update_density cfg ps)[i]? = some d ∧
      MASS * smoothing_kernel cfg.smoothing_radius 0 ≤ d ∧ 0 < d := by
  have hle : MASS * smoothing_kernel cfg.smoothing_radius 0 ≤
      ∑ j : Fin ps.length,
        MASS * smoothing_kernel cfg.smoothing_radius ((ps.get j - ps.get ⟨i, h⟩).length) := by
    have hself : MASS * smoothing_kernel cfg.smoothing_radius 0 =
        MASS * smoothing_kernel cfg.smoothing_radius
          ((ps.get ⟨i, h⟩ - ps.get ⟨i, h⟩).length) := by
      simp
    rw [hself]
    refine Finset.single_le_sum
      (f := fun j : Fin ps.length =>
        MASS * smoothing_kernel cfg.smoothing_radius ((ps.get j - ps.get ⟨i, h⟩).length))
      ?_ (Finset.mem_univ ⟨i, h⟩)
    intro j _
    have := smoothing_kernel_nonneg cfg.smoothing_radius
      ((ps.get j - ps.get ⟨i, h⟩).length) hr
    simp only [MASS]
    linarith
  have hpos : 0 < MASS * smoothing_kernel cfg.smoothing_radius 0 := by
    have := smoothing_kernel_zero_pos cfg.smoothing_radius hr
    simp only [MASS]
    linarith
  exact ⟨_, update_density_get cfg ps i h, hle, lt_of_lt_of_le hpos hle⟩

/-- Witness for C4 on a concrete two-particle store with the default config. -/
theorem update_density_pos_witness :
    0 < SimConfig.default.smoothing_radius ∧ 0 < ([⟨0, 0⟩, ⟨1, 0⟩] : List Vec2).length ∧
    (∃ d : ℝ, (update_density SimConfig.default [⟨0, 0⟩, ⟨1, 0⟩])[0]? = some d ∧
      MASS * smoothing_kernel SimConfig.default.smoothing_radius 0 ≤ d ∧ 0 < d) :=
  ⟨by norm_num [SimConfig.default], by norm_num,
    update_density_pos SimConfig.default [⟨0, 0⟩, ⟨1, 0⟩] 0
      (by norm_num [SimConfig.default]) (by norm_num)⟩

/-! ### Pressure force solver -/

instance : DecidableEq Vec2 := Classical.decEq _

/-- A concrete two-particle store used by the witnesses below
(positions as in a spawned scene, zero velocities, seed density `1`). -/
def two_particles : List Particle := [⟨⟨0, 0⟩, ⟨0, 0⟩, 1⟩, ⟨⟨1 / 2, 0⟩, ⟨0, 0⟩, 1⟩]

theorem calculate_pressure_force_snapshot (sample : Vec2) (cfg : SimConfig)
    (particles : List Particle) :
    calculate_pressure_force sample (particles.map Particle.position)
        (particles.map Particle.density) cfg
      = ∑ j : Fin particles.length,
          pressure_force_term sample cfg (particles.get j).position (particles.get j).density := by
  unfold calculate_pressure_force
  rw [List.zip_map']
  rw [foldl_add_eq_sum (fun pd : Vec2 × ℝ => pressure_force_term sample cfg pd.1 pd.2)
    (particles.map fun p => (p.position, p.density)) 0]
  rw [zero_add, List.map_map, map_sum_eq_fin_sum]
  simp [Function.comp]

theorem apply_pressure_force_get (dt : ℝ) (cfg : SimConfig) (particles : List Particle)
    (i : ℕ) (h : i < particles.length) :
    (apply_pressure_force dt cfg particles)[i]? =
      some { particles.get ⟨i, h⟩ with
        velocity := (particles.get ⟨i, h⟩).velocity +
          (∑ j : Fin particles.length,
              pressure_force_term (particles.get ⟨i, h⟩).position cfg
                (particles.get j).position (particles.get j).density) /
            (particles.get ⟨i, h⟩).density * dt } := by
  unfold apply_pressure_force
  rw [List.getElem?_map, List.getElem?_eq_getElem h, Option.map_some']
  rw [calculate_pressure_force_snapshot]
  simp [List.get_eq_getElem]

theorem pressure_force_term_self (sample : Vec2) (cfg : SimConfig) (d : ℝ) :
    pressure_force_term sample cfg sample d = 0 := by
  unfold pressure_force_term
  simp only [Vec2.sub_self, Vec2.length_zero]
  rw [if_pos (by norm_num : (0 : ℝ) ≤ 0.0001), smoothing_kernel_derivative_zero]
  ext <;> simp [Vec2.X]

theorem sum_map_filter_eq {α M : Type*} [AddCommMonoid M] (l : List α) (p : α → Bool)
    (f : α → M) (h : ∀ a ∈ l, p a = false → f a = 0) :
    ((l.filter p).map f).sum = (l.map f).sum := by
  induction l with
  | nil => rfl
  | cons a l ih =>
    have ih' := ih fun b hb hb' => h b (List.mem_cons_of_mem a hb) hb'
    by_cases hpa : p a
    · simp [List.filter_cons, hpa, ih']
    · have hz : f a = 0 := h a (List.mem_cons_self a l) (by simpa using hpa)
      simp [List.filter_cons, hpa, hz, ih']

/-- C3: the pressure pass adds `pressure_force / density * dt` to each velocity,
where the force is the all-particles sum of
`(−(density j − target)·multiplier) • dir * slope * MASS / density j`,
with the `+x` fallback direction for distances `≤ 1e-4`. -/
theorem apply_pressure_force_formula (dt : ℝ) (cfg : SimConfig) (particles : List Particle)
    (i : ℕ) (h : i < particles.length) :
    (apply_pressure_force dt cfg particles)[i]? =
      some { particles.get ⟨i, h⟩ with
        velocity := (particles.get ⟨i, h⟩).velocity +
          (∑ j : Fin particles.length,
              (-(((particles.get j).density - cfg.target_density) * cfg.pressure_multiplier)) •
                  (if ((particles.get j).position - (particles.get ⟨i, h⟩).position).length ≤ 0.0001
                    then Vec2.X
                    else ((particles.get j).position - (particles.get ⟨i, h⟩).position) /
                      ((particles.get j).position - (particles.get ⟨i, h⟩).position).length) *
                  smoothing_kernel_derivative cfg.smoothing_radius
                    (((particles.get j).position - (particles.get ⟨i, h⟩).position).length) *
                  MASS / (particles.get j).density) /
            (particles.get ⟨i, h⟩).density * dt } := by
  rw [apply_pressure_force_get dt cfg particles i h]
  simp only [pressure_force_term, convert_density_to_pressure]

/-- Witness for C3 on `two_particles` with the default config and `dt = 1`. -/
theorem apply_pressure_force_formula_witness :
    0 < two_particles.length ∧
    ∃ p : Particle, (apply_pressure_force 1 SimConfig.default two_particles)[0]? = some p :=
  ⟨by norm_num [two_particles],
    ⟨_, apply_pressure_force_formula 1 SimConfig.default two_particles 0
      (by norm_num [two_particles])⟩⟩

/-- C10: `smoothing_kernel_derivative r 0 = 0`, any neighbor located exactly at
the sample point contributes the zero vector to the pressure force, and hence
the force over index-aligned positions/densities is unchanged when all pairs
whose position equals the sample point are dropped. -/
theorem pressure_force_self_pair_irrelevant (cfg : SimConfig) (sample : Vec2)
    (positions : List Vec2) (densities : List ℝ)
    (hr : 0 < cfg.smoothing_radius) (hd : ∀ d ∈ densities, 0 < d) :
    smoothing_kernel_derivative cfg.smoothing_radius 0 = 0 ∧
    (∀ d : ℝ, pressure_force_term sample cfg sample d = 0) ∧
    calculate_pressure_force sample
        (((positions.zip densities).filter fun pd => decide (pd.1 ≠ sample)).unzip).1
        (((positions.zip densities).filter fun pd => decide (pd.1 ≠ sample)).unzip).2 cfg
      = calculate_pressure_force sample positions densities cfg := by
  refine ⟨smoothing_kernel_derivative_zero _, fun d => pressure_force_term_self sample cfg d, ?_⟩
  unfold calculate_pressure_force
  rw [List.zip_unzip]
  rw [foldl_add_eq_sum (fun pd : Vec2 × ℝ => pressure_force_term sample cfg pd.1 pd.2)
    ((positions.zip densities).filter fun pd => decide (pd.1 ≠ sample)) 0]
  rw [foldl_add_eq_sum (fun pd : Vec2 × ℝ => pressure_force_term sample cfg pd.1 pd.2)
    (positions.zip densities) 0]
  rw [zero_add, zero_add]
  apply sum_map_filter_eq
  intro a _ ha
  have ha' : a.1 = sample := by simpa [decide_eq_false_iff_not] using ha
  rw [ha']
  exact pressure_force_term_self sample cfg a.2

/-- Witness for C10 on `two_particles`-shaped data with the default config. -/
theorem pressure_force_self_pair_irrelevant_witness :
    0 < SimConfig.default.smoothing_radius ∧
    (∀ d ∈ ([1, 1] : List ℝ), (0 : ℝ) < d) ∧
    (smoothing_kernel_derivative SimConfig.default.smoothing_radius 0 = 0 ∧
      (∀ d : ℝ, pressure_force_term ⟨0, 0⟩ SimConfig.default ⟨0, 0⟩ d = 0) ∧
      calculate_pressure_force ⟨0, 0⟩
          (((([⟨0, 0⟩, ⟨1 / 2, 0⟩] : List Vec2).zip ([1, 1] : List ℝ)).filter
            fun pd => decide (pd.1 ≠ (⟨0, 0⟩ : Vec2))).unzip).1
          (((([⟨0, 0⟩, ⟨1 / 2, 0⟩] : List Vec2).zip ([1, 1] : List ℝ)).filter
            fun pd => decide (pd.1 ≠ (⟨0, 0⟩ : Vec2))).unzip).2 SimConfig.default
        = calculate_pressure_force ⟨0, 0⟩ [⟨0, 0⟩, ⟨1 / 2, 0⟩] [1, 1] SimConfig.default) :=
  ⟨by norm_num [SimConfig.default], by intro d hd; fin_cases hd <;> norm_num,
    pressure_force_self_pair_irrelevant SimConfig.default ⟨0, 0⟩ [⟨0, 0⟩, ⟨1 / 2, 0⟩] [1, 1]
      (by norm_num [SimConfig.default]) (by intro d hd; fin_cases hd <;> norm_num)⟩

/-! ### Integrator -/

theorem vec_mul_zero (v : Vec2) : v * (0 : ℝ) = 0 := by
  ext <;> simp

theorem map_update_velocity_zero (g : Particle → Vec2) (l : List Particle) :
    (l.map fun p => { p with velocity := p.velocity + g p * (0 : ℝ) }) = l := by
  induction l with
  | nil => rfl
  | cons a l ih =>
    simp only [List.map_cons, ih]
    congr 1
    ext <;> simp [vec_mul_zero]

theorem map_update_position_zero (l : List Particle) :
    (l.map fun p => { p with position := p.position + p.velocity * (0 : ℝ) }) = l := by
  induction l with
  | nil => rfl
  | cons a l ih =>
    simp only [List.map_cons, ih]
    congr 1
    ext <;> simp [vec_mul_zero]

/-- C9: with `dt = 0` both integrator writes are no-ops — the pressure pass
leaves every velocity unchanged and the position pass leaves every position
unchanged (the whole particle store is returned unmodified). -/
theorem dt_zero_noop (cfg : SimConfig) (particles : List Particle) :
    apply_pressure_force 0 cfg particles = particles ∧
    update_position 0 particles = particles :=
  ⟨map_update_velocity_zero
      (fun p => calculate_pressure_force p.position (particles.map Particle.position)
        (particles.map Particle.density) cfg / p.density) particles,
    map_update_position_zero particles⟩

/-! ### Boundary resolver -/

theorem abs_mul_signum_le (h x : ℝ) (hh : 0 ≤ h) : |h * signum x| ≤ h := by
  unfold signum
  split_ifs <;> simp [abs_mul, abs_of_nonneg hh]

theorem signum_of_pos (x : ℝ) (hx : 0 < x) : signum x = 1 := by
  unfold signum
  rw [if_neg (not_lt.mpr hx.le)]

/-- C5: after one boundary pass, each coordinate is within the half extent
`bounds_size/2 − particle_radius` of the origin-centered domain (the configured
domain has nonnegative half extents). -/
theorem resolve_collision_in_bounds (cfg : SimConfig) (p : Particle)
    (hx : 0 ≤ (half_extent cfg).x) (hy : 0 ≤ (half_extent cfg).y) :
    |(resolve_collision cfg p).position.x| ≤ (half_extent cfg).x ∧
    |(resolve_collision cfg p).position.y| ≤ (half_extent cfg).y := by
  by_cases h1 : (half_extent cfg).x < |p.position.x| <;>
    by_cases h2 : (half_extent cfg).y < |p.position.y| <;>
    simp only [resolve_collision, h1, h2, if_true, if_false, not_lt, ite_true, ite_false,
      reduceIte] <;>
    constructor <;>
    first
      | exact abs_mul_signum_le _ _ hx
      | exact abs_mul_signum_le _ _ hy
      | exact not_lt.mp h1
      | exact not_lt.mp h2

/-- Witness for C5: default config, a particle far outside the corner. -/
theorem resolve_collision_in_bounds_witness :
    0 ≤ (half_extent SimConfig.default).x ∧ 0 ≤ (half_extent SimConfig.default).y ∧
    (|(resolve_collision SimConfig.default ⟨⟨100, -100⟩, ⟨1, 2⟩, 1⟩).position.x| ≤
        (half_extent SimConfig.default).x ∧
      |(resolve_collision SimConfig.default ⟨⟨100, -100⟩, ⟨1, 2⟩, 1⟩).position.y| ≤
        (half_extent SimConfig.default).y) :=
  ⟨by norm_num [half_extent, SimConfig.default, Vec2.ONE, PARTICLE_SIZE, WINDOW_WIDTH],
    by norm_num [half_extent, SimConfig.default, Vec2.ONE, PARTICLE_SIZE, WINDOW_HEIGHT],
    resolve_collision_in_bounds SimConfig.default ⟨⟨100, -100⟩, ⟨1, 2⟩, 1⟩
      (by norm_num [half_extent, SimConfig.default, Vec2.ONE, PARTICLE_SIZE, WINDOW_WIDTH])
      (by norm_num [half_extent, SimConfig.default, Vec2.ONE, PARTICLE_SIZE, WINDOW_HEIGHT])⟩

/-- C6: the reflection law: a coordinate at `half_extent + δ` (δ > 0) is clamped
to `half_extent` and its velocity component becomes `−v · collision_damping`;
the law holds per axis, and at a corner both axes are flipped and damped in the
same pass, the `y` axis using the pre-resolution sign of `y`. -/
theorem resolve_collision_reflection (cfg : SimConfig) (p : Particle) (δ : ℝ)
    (hδ : 0 < δ) (hx : 0 ≤ (half_extent cfg).x) (hy : 0 ≤ (half_extent cfg).y) :
    (p.position.x = (half_extent cfg).x + δ →
      (resolve_collision cfg p).position.x = (half_extent cfg).x ∧
      (resolve_collision cfg p).velocity.x = -p.velocity.x * cfg.collision_damping) ∧
    (p.position.y = (half_extent cfg).y + δ →
      (resolve_collision cfg p).position.y = (half_extent cfg).y ∧
      (resolve_collision cfg p).velocity.y = -p.velocity.y * cfg.collision_damping) ∧
    (∀ δ' : ℝ, 0 < δ' → p.position.x = (half_extent cfg).x + δ →
      p.position.y = (half_extent cfg).y + δ' →
      (resolve_collision cfg p).position = (⟨(half_extent cfg).x, (half_extent cfg).y⟩ : Vec2) ∧
      (resolve_collision cfg p).velocity =
        (⟨-p.velocity.x * cfg.collision_damping, -p.velocity.y * cfg.collision_damping⟩ : Vec2)) := by
  refine ⟨?_, ?_, ?_⟩
  · intro hpx
    have hxpos : 0 < p.position.x := by rw [hpx]; linarith
    have h1 : (half_extent cfg).x < |p.position.x| := by
      rw [abs_of_pos hxpos, hpx]; linarith
    by_cases h2 : (half_extent cfg).y < |p.position.y| <;>
      simp only [resolve_collision, h1, h2, ite_true, ite_false, reduceIte,
        signum_of_pos _ hxpos] <;>
      constructor <;> ring
  · intro hpy
    have hypos : 0 < p.position.y := by rw [hpy]; linarith
    have h2 : (half_extent cfg).y < |p.position.y| := by
      rw [abs_of_pos hypos, hpy]; linarith
    by_cases h1 : (half_extent cfg).x < |p.position.x| <;>
      simp only [resolve_collision, h1, h2, ite_true, ite_false, reduceIte,
        signum_of_pos _ hypos] <;>
      constructor <;> ring
  · intro δ' hδ' hpx hpy
    have hxpos : 0 < p.position.x := by rw [hpx]; linarith
    have hypos : 0 < p.position.y := by rw [hpy]; linarith
    have h1 : (half_extent cfg).x < |p.position.x| := by
      rw [abs_of_pos hxpos, hpx]; linarith
    have h2 : (half_extent cfg).y < |p.position.y| := by
      rw [abs_of_pos hypos, hpy]; linarith
    simp only [resolve_collision, h1, h2, ite_true, ite_false, reduceIte,
      signum_of_pos _ hxpos, signum_of_pos _ hypos]
    constructor <;> ext <;> simp

/-- Witness for C6: default config, corner particle at `half_extent + (1, 1)`. -/
theorem resolve_collision_reflection_witness :
    (0 : ℝ) < 1 ∧ 0 ≤ (half_extent SimConfig.default).x ∧ 0 ≤ (half_extent SimConfig.default).y ∧
    ∃ p : Particle,
      (p.position.x = (half_extent SimConfig.default).x + 1 →
        (resolve_collision SimConfig.default p).position.x = (half_extent SimConfig.default).x ∧
        (resolve_collision SimConfig.default p).velocity.x =
          -p.velocity.x * SimConfig.default.collision_damping) ∧
      (p.position.y = (half_extent SimConfig.default).y + 1 →
        (resolve_collision SimConfig.default p).position.y = (half_extent SimConfig.default).y ∧
        (resolve_collision SimConfig.default p).velocity.y =
          -p.velocity.y * SimConfig.default.collision_damping) ∧
      (∀ δ' : ℝ, 0 < δ' → p.position.x = (half_extent SimConfig.default).x + 1 →
        p.position.y = (half_extent SimConfig.default).y + δ' →
        (resolve_collision SimConfig.default p).position =
          (⟨(half_extent SimConfig.default).x, (half_extent SimConfig.default).y⟩ : Vec2) ∧
        (resolve_collision SimConfig.default p).velocity =
          (⟨-p.velocity.x * SimConfig.default.collision_damping,
            -p.velocity.y * SimConfig.default.collision_damping⟩ : Vec2)) :=
  ⟨by norm_num,
    by norm_num [half_extent, SimConfig.default, Vec2.ONE, PARTICLE_SIZE, WINDOW_WIDTH],
    by norm_num [half_extent, SimConfig.default, Vec2.ONE, PARTICLE_SIZE, WINDOW_HEIGHT],
    ⟨⟨⟨(half_extent SimConfig.default).x + 1, (half_extent SimConfig.default).y + 1⟩, ⟨3, 4⟩, 1⟩,
      resolve_collision_reflection SimConfig.default
        ⟨⟨(half_extent SimConfig.default).x + 1, (half_extent SimConfig.default).y + 1⟩, ⟨3, 4⟩, 1⟩ 1
        (by norm_num)
        (by norm_num [half_extent, SimConfig.default, Vec2.ONE, PARTICLE_SIZE, WINDOW_WIDTH])
        (by norm_num [half_extent, SimConfig.default, Vec2.ONE, PARTICLE_SIZE, WINDOW_HEIGHT])⟩⟩

theorem resolve_collision_of_in_bounds (cfg : SimConfig) (p : Particle)
    (h1 : |p.position.x| ≤ (half_extent cfg).x) (h2 : |p.position.y| ≤ (half_extent cfg).y) :
    resolve_collision cfg p = p := by
  simp only [resolve_collision, not_lt.mpr h1, not_lt.mpr h2, ite_false, if_neg, not_lt,
    reduceIte]

/-- C8: the boundary pass is idempotent on an already-in-bounds particle —
running it twice without an intervening integration equals running it once. -/
theorem resolve_collision_idempotent (cfg : SimConfig) (p : Particle)
    (h1 : |p.position.x| ≤ (half_extent cfg).x) (h2 : |p.position.y| ≤ (half_extent cfg).y) :
    resolve_collision cfg (resolve_collision cfg p) = resolve_collision cfg p := by
  rw [resolve_collision_of_in_bounds cfg p h1 h2, resolve_collision_of_in_bounds cfg p h1 h2]

/-- Witness for C8: default config, in-bounds particle at the origin. -/
theorem resolve_collision_idempotent_witness :
    |(⟨⟨0, 0⟩, ⟨1, 2⟩, 1⟩ : Particle).position.x| ≤ (half_extent SimConfig.default).x ∧
    |(⟨⟨0, 0⟩, ⟨1, 2⟩, 1⟩ : Particle).position.y| ≤ (half_extent SimConfig.default).y ∧
    resolve_collision SimConfig.default (resolve_collision SimConfig.default ⟨⟨0, 0⟩, ⟨1, 2⟩, 1⟩) =
      resolve_collision SimConfig.default ⟨⟨0, 0⟩, ⟨1, 2⟩, 1⟩ :=
  ⟨by norm_num [half_extent, SimConfig.default, Vec2.ONE, PARTICLE_SIZE, WINDOW_WIDTH],
    by norm_num [half_extent, SimConfig.default, Vec2.ONE, PARTICLE_SIZE, WINDOW_HEIGHT],
    resolve_collision_idempotent SimConfig.default ⟨⟨0, 0⟩, ⟨1, 2⟩, 1⟩
      (by norm_num [half_extent, SimConfig.default, Vec2.ONE, PARTICLE_SIZE, WINDOW_WIDTH])
      (by norm_num [half_extent, SimConfig.default, Vec2.ONE, PARTICLE_SIZE, WINDOW_HEIGHT])⟩

/-- Witness for C7 at `r = 1`, `d = 1/2`. -/
theorem smoothing_kernel_spec_witness :
    (0 : ℝ) < 1 ∧ (0 : ℝ) ≤ 1 / 2 ∧
    (((1 : ℝ) / 2 < 1 → smoothing_kernel 1 (1 / 2) = ((1 : ℝ) - 1 / 2) ^ 3 / (Real.pi * 1 ^ (8 : ℕ) / 4)) ∧
     ((1 : ℝ) ≤ 1 / 2 → smoothing_kernel 1 (1 / 2) = 0) ∧
     ((0 : ℝ) < 1 / 2 → (1 : ℝ) / 2 < 1 → smoothing_kernel 1 0 > smoothing_kernel 1 (1 / 2))) :=
  ⟨by norm_num, by norm_num, smoothing_kernel_spec 1 (1 / 2) (by norm_num) (by norm_num)⟩

/-! ### The Update schedule registered in `main` -/

/-- The systems `main` adds to the `Update` schedule. -/
inductive UpdateSystem where
  | applyPressureForce
  | updateDensity
  | updatePosition
  | resolveCollision
  | drawGizmos
deriving DecidableEq

/-- `add_systems(Update, (apply_pressure_force, update_density, update_position,
resolve_collision, draw_gizmos))`: the systems in the order they are written in
the tuple. -/
def update_schedule_systems : List UpdateSystem :=
  [UpdateSystem.applyPressureForce, UpdateSystem.updateDensity, UpdateSystem.updatePosition,
    UpdateSystem.resolveCollision, UpdateSystem.drawGizmos]

/-- Execution-order constraints registered for the `Update` schedule: the tuple
in `main` is not chained and carries no `before`/`after` edges, so the list of
constraints is empty. -/
def update_schedule_ordering_constraints : List (UpdateSystem × UpdateSystem) := []

/-- Config used for the order-divergence example: radius `1`, target density
`0`, pressure multiplier `1`, huge bounds, no gravity. -/
def stale_cfg : SimConfig := ⟨0, 1, ⟨100, 100⟩, 0, 2, 0, 0, 1⟩

theorem length_half : ((⟨1 / 2, 0⟩ : Vec2) - ⟨0, 0⟩).length = 1 / 2 := by
  have h : ((⟨1 / 2, 0⟩ : Vec2) - ⟨0, 0⟩).length =
      Real.sqrt (((1 : ℝ) / 2 - 0) ^ 2 + ((0 : ℝ) - 0) ^ 2) := rfl
  rw [h, show ((1 : ℝ) / 2 - 0) ^ 2 + ((0 : ℝ) - 0) ^ 2 = ((1 : ℝ) / 2) ^ 2 by norm_num]
  exact Real.sqrt_sq (by norm_num)

theorem length_half' : ((⟨0, 0⟩ : Vec2) - ⟨1 / 2, 0⟩).length = 1 / 2 := by
  have h : ((⟨0, 0⟩ : Vec2) - ⟨1 / 2, 0⟩).length =
      Real.sqrt (((0 : ℝ) - 1 / 2) ^ 2 + ((0 : ℝ) - 0) ^ 2) := rfl
  rw [h, show ((0 : ℝ) - 1 / 2) ^ 2 + ((0 : ℝ) - 0) ^ 2 = ((1 : ℝ) / 2) ^ 2 by norm_num]
  exact Real.sqrt_sq (by norm_num)

theorem kernel_one_zero : smoothing_kernel 1 0 = 4 / Real.pi := by
  rw [smoothing_kernel_of_lt 1 0 (by norm_num)]
  have hπ := Real.pi_ne_zero
  field_simp

theorem kernel_one_half : smoothing_kernel 1 (1 / 2) = 1 / (2 * Real.pi) := by
  rw [smoothing_kernel_of_lt 1 (1 / 2) (by norm_num)]
  have hπ := Real.pi_ne_zero
  field_simp
  ring

theorem deriv_one_half : smoothing_kernel_derivative 1 (1 / 2) = -27 / (4 * Real.pi) := by
  unfold smoothing_kernel_derivative
  rw [if_neg (by norm_num : ¬(1 : ℝ) ≤ 1 / 2)]
  have hπ := Real.pi_ne_zero
  field_simp
  ring

theorem stale_densities :
    update_density stale_cfg [⟨0, 0⟩, ⟨1 / 2, 0⟩] = [9 / (2 * Real.pi), 9 / (2 * Real.pi)] := by
  have hπ := Real.pi_ne_zero
  unfold update_density
  simp only [List.map_cons, List.map_nil, List.foldl_cons, List.foldl_nil, Vec2.sub_self,
    Vec2.length_zero]
  rw [length_half, length_half']
  rw [show stale_cfg.smoothing_radius = 1 from rfl, kernel_one_zero, kernel_one_half]
  simp only [MASS, one_mul, zero_add]
  rw [show (4 : ℝ) / Real.pi + 1 / (2 * Real.pi) = 9 / (2 * Real.pi) by field_simp; ring]
  rw [show (1 : ℝ) / (2 * Real.pi) + 4 / Real.pi = 9 / (2 * Real.pi) by field_simp; ring]

theorem term_right (D : ℝ) (hD : D ≠ 0) :
    pressure_force_term ⟨0, 0⟩ stale_cfg ⟨1 / 2, 0⟩ D = ⟨27 / (4 * Real.pi), 0⟩ := by
  have hπ := Real.pi_ne_zero
  unfold pressure_force_term convert_density_to_pressure
  rw [length_half]
  dsimp only
  rw [if_neg (by norm_num : ¬(1 : ℝ) / 2 ≤ 0.0001)]
  rw [show stale_cfg.smoothing_radius = 1 from rfl,
    show stale_cfg.target_density = (0 : ℝ) from rfl,
    show stale_cfg.pressure_multiplier = (1 : ℝ) from rfl, deriv_one_half]
  simp only [MASS, Vec2.mk_sub_mk, Vec2.mk_div, Vec2.smul_mk, Vec2.mk_mul, Vec2.mk.injEq]
  constructor <;> field_simp <;> ring

theorem term_left (D : ℝ) (hD : D ≠ 0) :
    pressure_force_term ⟨1 / 2, 0⟩ stale_cfg ⟨0, 0⟩ D = ⟨-(27 / (4 * Real.pi)), 0⟩ := by
  have hπ := Real.pi_ne_zero
  unfold pressure_force_term convert_density_to_pressure
  rw [length_half']
  dsimp only
  rw [if_neg (by norm_num : ¬(1 : ℝ) / 2 ≤ 0.0001)]
  rw [show stale_cfg.smoothing_radius = 1 from rfl,
    show stale_cfg.target_density = (0 : ℝ) from rfl,
    show stale_cfg.pressure_multiplier = (1 : ℝ) from rfl, deriv_one_half]
  simp only [MASS, Vec2.mk_sub_mk, Vec2.mk_div, Vec2.smul_mk, Vec2.mk_mul, Vec2.mk.injEq]
  constructor <;> field_simp <;> ring

theorem pressure_velocities (D : ℝ) (hD : D ≠ 0) :
    apply_pressure_force 1 stale_cfg
        [⟨⟨0, 0⟩, ⟨0, 0⟩, D⟩, ⟨⟨1 / 2, 0⟩, ⟨0, 0⟩, D⟩] =
      [⟨⟨0, 0⟩, ⟨27 / (4 * Real.pi) / D, 0⟩, D⟩,
        ⟨⟨1 / 2, 0⟩, ⟨-(27 / (4 * Real.pi)) / D, 0⟩, D⟩] := by
  unfold apply_pressure_force calculate_pressure_force
  simp only [List.map_cons, List.map_nil, List.zip_cons_cons, List.zip_nil_left,
    List.foldl_cons, List.foldl_nil]
  simp only [pressure_force_term_self, zero_add, add_zero]
  rw [term_right D hD, term_left D hD]
  simp only [Vec2.mk_div, Vec2.mk_mul, Vec2.mk_add_mk, List.cons.injEq, Particle.mk.injEq,
    Vec2.mk.injEq]
  norm_num

theorem stale_pass1 :
    update_density_pass stale_cfg two_particles =
      [⟨⟨0, 0⟩, ⟨0, 0⟩, 9 / (2 * Real.pi)⟩, ⟨⟨1 / 2, 0⟩, ⟨0, 0⟩, 9 / (2 * Real.pi)⟩] := by
  unfold update_density_pass two_particles
  simp only [List.map_cons, List.map_nil]
  rw [stale_densities]
  simp only [List.zip_cons_cons, List.zip_nil_left, List.map_cons, List.map_nil]

theorem stale_pressure_first :
    apply_pressure_force 1 stale_cfg two_particles =
      [⟨⟨0, 0⟩, ⟨27 / (4 * Real.pi) / 1, 0⟩, 1⟩,
        ⟨⟨1 / 2, 0⟩, ⟨-(27 / (4 * Real.pi)) / 1, 0⟩, 1⟩] := by
  unfold two_particles
  exact pressure_velocities 1 one_ne_zero

theorem stale_pass2 :
    update_density_pass stale_cfg
        [⟨⟨0, 0⟩, ⟨27 / (4 * Real.pi) / 1, 0⟩, 1⟩,
          ⟨⟨1 / 2, 0⟩, ⟨-(27 / (4 * Real.pi)) / 1, 0⟩, 1⟩] =
      [⟨⟨0, 0⟩, ⟨27 / (4 * Real.pi) / 1, 0⟩, 9 / (2 * Real.pi)⟩,
        ⟨⟨1 / 2, 0⟩, ⟨-(27 / (4 * Real.pi)) / 1, 0⟩, 9 / (2 * Real.pi)⟩] := by
  unfold update_density_pass
  simp only [List.map_cons, List.map_nil]
  rw [stale_densities]
  simp only [List.zip_cons_cons, List.zip_nil_left, List.map_cons, List.map_nil]

/-- C1 (code bug): `main` registers the four passes as an unchained tuple — no
ordering constraints exist and the tuple even lists `apply_pressure_force`
before `update_density` — and the order matters: on a concrete two-particle
store, running the pressure pass after the density pass (as the claim requires)
produces different particles than running it before (a schedule the
registration permits), because the pressure pass then reads stale densities. -/
theorem update_schedule_unordered :
    update_schedule_ordering_constraints = [] ∧
    update_schedule_systems.indexOf UpdateSystem.applyPressureForce <
      update_schedule_systems.indexOf UpdateSystem.updateDensity ∧
    apply_pressure_force 1 stale_cfg (update_density_pass stale_cfg two_particles) ≠
      update_density_pass stale_cfg (apply_pressure_force 1 stale_cfg two_particles) := by
  refine ⟨rfl, by decide, ?_⟩
  have hπ0 := Real.pi_pos
  have hπ := Real.pi_ne_zero
  have hD9 : (9 : ℝ) / (2 * Real.pi) ≠ 0 := by positivity
  rw [stale_pass1, pressure_velocities (9 / (2 * Real.pi)) hD9, stale_pressure_first,
    stale_pass2]
  intro h
  have hx : (27 : ℝ) / (4 * Real.pi) / (9 / (2 * Real.pi)) = 27 / (4 * Real.pi) / 1 := by
    have h1 := congrArg
      (fun l : List Particle => (l.headD ⟨⟨0, 0⟩, ⟨0, 0⟩, 0⟩).velocity.x) h
    simpa using h1
  rw [div_one] at hx
  rw [show (27 : ℝ) / (4 * Real.pi) / (9 / (2 * Real.pi)) = 3 / 2 by field_simp; ring] at hx
  have hlt := Real.pi_lt_d2
  field_simp at hx
  linarith

end

end FluidSim
